import Mathlib

/-!
Verification of the InstaT collection engine against its specification.

The Python sources (`InstaT/extractor.py`, `InstaT/login.py`, `InstaT/utils.py`)
are shallowly embedded below.  Text is modelled as `List Char`; the ASCII
behaviour of Python's `str.lower`/`str.casefold`, `str.strip` and the `\s`,
`\d` regex classes is modelled by explicit character predicates.  The Selenium
driver is replaced by explicit environment records: every observable the code
reads from the browser (element texts, URL changes, page markup, elapsed time)
is a field of the environment, and each loop is given explicit fuel, with
`none` denoting fuel exhaustion.
-/

/-- Text is a list of characters. -/
abbrev Str := List Char

/-- ASCII model of Python's whitespace class `\s` (space, tab, LF, VT, FF, CR). -/
def isSpaceC (c : Char) : Bool :=
  decide (c.toNat = 32 ∨ c.toNat = 9 ∨ c.toNat = 10 ∨ c.toNat = 11 ∨ c.toNat = 12 ∨ c.toNat = 13)

/-- ASCII decimal digit, the `\d` class of the count regex. -/
def isDigitC (c : Char) : Bool :=
  decide (48 ≤ c.toNat ∧ c.toNat ≤ 57)

/-- ASCII model of Python's `str.lower` / `str.casefold` on one character. -/
def lowerChar (c : Char) : Char :=
  if 65 ≤ c.toNat ∧ c.toNat ≤ 90 then Char.ofNat (c.toNat + 32) else c

/-- Python's `str.strip()`: drop whitespace from both ends. -/
def trimChars (s : Str) : Str :=
  List.rdropWhile isSpaceC (List.dropWhile isSpaceC s)

/-- Whether the first list is a prefix of the second (Boolean). -/
def startsWithL : Str → Str → Bool
  | [], _ => true
  | _ :: _, [] => false
  | a :: as, b :: bs => a == b && startsWithL as bs

/-- Python's substring test `needle in hay`. -/
def containsSub (hay needle : Str) : Bool :=
  startsWithL needle hay ||
    match hay with
    | [] => false
    | _ :: t => containsSub t needle

/-- Helper for `splitWs`: accumulates the current word in reverse. -/
def splitWsAux : Str → Str → List Str
  | [], acc => if acc = [] then [] else [acc.reverse]
  | c :: cs, acc =>
    if isSpaceC c then
      if acc = [] then splitWsAux cs []
      else acc.reverse :: splitWsAux cs []
    else splitWsAux cs (c :: acc)

/-- Python's `str.split()` with no argument: split on whitespace runs, no empty words. -/
def splitWs (s : Str) : List Str :=
  splitWsAux s []

/-- Value of a string of decimal digits, as Python's `int(...)`. -/
def digitsToNat (ds : Str) : Nat :=
  ds.foldl (fun a c => a * 10 + (c.toNat - 48)) 0

/-- Split off the maximal leading run of decimal digits (the greedy `(\d+)` match). -/
def splitDigits : Str → Str × Str
  | [] => ([], [])
  | c :: cs =>
    if isDigitC c then
      let r := splitDigits cs
      (c :: r.1, r.2)
    else ([], c :: cs)

/-- The magnitude suffixes recognised by `parse_count_text`: `("k","m","mi","mil")`. -/
def suffixTokens : List Str :=
  [['k'], ['m'], ['m', 'i'], ['m', 'i', 'l']]

/-- The suffix group `(k|m|mi|mil)?` matched against the remainder of the input;
`none` means the remainder fits no alternative (no regex match at all). -/
def suffixOf (r : Str) : Option (Option Str) :=
  if r = [] then some none
  else if r ∈ suffixTokens then some (some r)
  else none

/-- `re.fullmatch r"(\d+)[\.,]?(\d+)?(k|m|mi|mil)?"` on the cleaned text.
Greedy matching is deterministic here: digits are never followed by digits
after a maximal run, a leading separator can occur in no other group, and the
suffix group must consume the exact remainder. -/
def matchCount (txt : Str) : Option (Str × Option Str × Option Str) :=
  let p := splitDigits txt
  if p.1 = [] then none
  else
    let rest2 : Str :=
      match p.2 with
      | c :: cs => if c == '.' || c == ',' then cs else c :: cs
      | [] => []
    let q := splitDigits rest2
    let dpO : Option Str := if q.1 = [] then none else some q.1
    match suffixOf q.2 with
    | none => none
    | some suf => some (p.1, dpO, suf)

/-- Suffix multiplier of `InstaExtractor.parse_count_text`. -/
def multiplierOf : Option Str → Nat
  | none => 1
  | some s =>
    if s = ['k'] then 1000
    else if s = ['m'] ∨ s = ['m', 'i'] then 1000000
    else if s = ['m', 'i', 'l'] then 1000
    else 1

/-- `InstaExtractor.parse_count_text` (extractor.py, lines 118-150).  The
`ValueError` raises are modelled as `Except.error` with the source's messages. -/
def parse_count_text (text : Str) : Except String Nat :=
  if text = [] then .error "Input is None or empty"
  else
    let txt0 := (text.map lowerChar).filter (fun c => !isSpaceC c)
    let txt :=
      if suffixTokens.any (fun suf => containsSub txt0 suf) then txt0
      else txt0.filter (fun c => !(c == '.' || c == ','))
    match matchCount txt with
    | none => .error "Unrecognized count format"
    | some (ip, dp, suf) =>
      let intVal := digitsToNat ip
      let multiplier := multiplierOf suf
      let base := intVal * multiplier
      match dp with
      | none => .ok base
      | some d => .ok (base + digitsToNat d * (multiplier / 10 ^ d.length))

/-- Whether an `Except` result is a success. -/
def isOkE {ε α : Type} : Except ε α → Bool
  | .ok _ => true
  | .error _ => false


/-- The tunable attributes set in `InstaExtractor.__init__` that the collection
loop reads (extractor.py, lines 101-106). -/
structure PCfg where
  max_refresh_attempts : Nat := 100
  max_retry_without_new_profiles : Nat := 3

/-- The configuration produced by `InstaExtractor.__init__`'s defaults. -/
def defaultCfg : PCfg := {}

/-- Simulated browser surface seen by `get_profiles`: for each round, the texts
of the elements matching `PROFILE_USERNAME_SPAN`, and the elapsed wall-clock
time observed at the top of the round.  `bodyFound` models whether
`_get_scrollable_body` succeeds. -/
structure ProfEnv where
  bodyFound : Bool
  visible : Nat → List Str
  elapsed : Nat → Rat

/-- The loop-local variables of `get_profiles` (extractor.py, lines 241-243),
plus the round counter used to index the simulated surface. -/
structure PState where
  collected : Finset Str
  refresh : Nat
  tryc : Nat
  prev : Nat
  round : Nat
deriving DecidableEq

/-- `InstaExtractor._extract_visible_profiles` (extractor.py, lines 310-327):
strip each visible text, add it if non-empty and unseen, and report whether
anything new was added this round. -/
def extract_visible_profiles (ts : List Str) (s : Finset Str) : Finset Str × Bool :=
  match ts with
  | [] => (s, false)
  | t :: rest =>
    let name := trimChars t
    if name ≠ [] ∧ name ∉ s then
      let out := extract_visible_profiles rest (insert name s)
      (out.1, true)
    else extract_visible_profiles rest s

/-- Result tuple of `_handle_profile_count`, in the source's order
`(refresh_attempts, try_count, previous_count)`, plus whether
`driver.refresh()` was performed. -/
structure HandleOut where
  refresh : Nat
  tryc : Nat
  prev : Nat
  didRefresh : Bool
deriving DecidableEq

/-- `InstaExtractor._handle_profile_count` (extractor.py, lines 329-345). -/
def handle_profile_count (maxRetry : Nat) (newFound : Bool)
    (prev tryc refresh : Nat) : HandleOut :=
  let current := prev + (if newFound then 1 else 0)
  if prev < current then
    { refresh := refresh, tryc := 0, prev := current, didRefresh := false }
  else
    let t := tryc + 1
    if maxRetry < t then
      { refresh := refresh + 1, tryc := 0, prev := 0, didRefresh := true }
    else
      { refresh := refresh, tryc := t, prev := prev, didRefresh := false }

/-- `InstaExtractor._is_max_duration_exceeded` (extractor.py, lines 282-289). -/
def is_max_duration_exceeded (elapsed : Rat) (maxDuration : Option Rat) : Bool :=
  match maxDuration with
  | none => false
  | some d => decide (d < elapsed)

/-- Why the `get_profiles` loop stopped; every alternative returns the
collected set normally (there is no error exit). -/
inductive ExitReason where
  | budgetExceeded
  | targetReached
  | ceilingReached
deriving DecidableEq

/-- The `while refresh_attempts < max_refresh_attempts` loop of
`get_profiles` (extractor.py, lines 249-266).  The scroll and the stall waiter
are driver effects without influence on the collected set; their outcome is
already reflected in `env.visible`.  `none` is fuel exhaustion. -/
def runProfiles (cfg : PCfg) (env : ProfEnv) (expected : Nat) (maxDur : Option Rat) :
    Nat → PState → Option (PState × ExitReason)
  | 0, _ => none
  | fuel + 1, st =>
    if st.refresh < cfg.max_refresh_attempts then
      if is_max_duration_exceeded (env.elapsed st.round) maxDur then
        some (st, .budgetExceeded)
      else
        let e := extract_visible_profiles (env.visible st.round) st.collected
        if expected ≤ e.1.card then
          some ({ st with collected := e.1 }, .targetReached)
        else
          let h := handle_profile_count cfg.max_retry_without_new_profiles e.2
            st.prev st.tryc st.refresh
          runProfiles cfg env expected maxDur fuel
            { collected := e.1, refresh := h.refresh, tryc := h.tryc,
              prev := h.prev, round := st.round + 1 }
    else some (st, .ceilingReached)

/-- The initial loop state of `get_profiles`. -/
def initPState : PState :=
  { collected := ∅, refresh := 0, tryc := 0, prev := 0, round := 0 }

/-- `InstaExtractor.get_profiles` (extractor.py, lines 234-270): returns the
collected set (the source returns `list(unique_profiles)`; order is
unspecified, so the set itself is the result), or `∅` when the scrollable body
cannot be found. -/
def get_profiles (cfg : PCfg) (env : ProfEnv) (expected : Nat) (maxDur : Option Rat)
    (fuel : Nat) : Option (Finset Str) :=
  if env.bodyFound then
    (runProfiles cfg env expected maxDur fuel initPState).map (fun out => out.1.collected)
  else some ∅

/-- Termination measure for the loop under a stalled surface: every round that
does not exit either bumps `tryc` (keeping `refresh`), or bumps `refresh`
resetting `tryc`. -/
def pMeasure (cfg : PCfg) (st : PState) : Nat :=
  (cfg.max_refresh_attempts - st.refresh) * (cfg.max_retry_without_new_profiles + 1)
    + (cfg.max_retry_without_new_profiles - st.tryc)

/-- The two list kinds accepted by `_open_list_modal`. -/
inductive ListKind where
  | followers
  | following
deriving DecidableEq

/-- Simulated profile page seen by `_open_list_modal` / `_extract_list`:
whether navigation works, whether the followers/following link is found and
clickable, the link's displayed text, and the modal surface behind it.
Failing to close the modal is logged and has no effect on the returned
usernames, so it needs no field. -/
structure ModalEnv where
  navOk : Bool
  linkFound : Bool
  clickOk : Bool
  linkText : Str
  profiles : ProfEnv

/-- The token join of `_open_list_modal` (extractor.py, lines 179-182):
`parts[0]`, plus `parts[1]` when the latter lower-cases to a magnitude
suffix. -/
def joinRaw (p0 : Str) (rest : List Str) : Str :=
  match rest with
  | p1 :: _ => if (p1.map lowerChar) ∈ suffixTokens then p0 ++ p1 else p0
  | [] => p0

/-- `InstaExtractor._open_list_modal` (extractor.py, lines 152-191).
`Except.error ()` is the uncaught `IndexError` on `parts[0]` when the link
text has no tokens; every caught exception (navigation fault, timeout,
`ValueError` from the parser, click fault) returns `none`, exactly as the
source returns `None`. -/
def open_list_modal (env : ModalEnv) (kind : ListKind) : Except Unit (Option Nat) :=
  if env.navOk = false then .ok none
  else if env.linkFound = false then .ok none
  else
    match splitWs env.linkText with
    | [] => .error ()
    | p0 :: rest =>
      match parse_count_text (joinRaw p0 rest) with
      | .error _ => .ok none
      | .ok n => if env.clickOk then .ok (some n) else .ok none

/-- `InstaExtractor._extract_list` (extractor.py, lines 193-214): open the
modal; when that yields `None`, return `[]` immediately; otherwise collect via
`get_profiles`.  Outer `none` is fuel exhaustion of the collection loop;
`kind` is threaded for fidelity (both kinds behave identically here). -/
def extract_list (cfg : PCfg) (env : ModalEnv) (kind : ListKind)
    (maxDur : Option Rat) (fuel : Nat) : Option (Except Unit (Finset Str)) :=
  match open_list_modal env kind with
  | .error e => some (.error e)
  | .ok none => some (.ok ∅)
  | .ok (some total) =>
    (get_profiles cfg env.profiles total maxDur fuel).map (fun s => .ok s)

/-- One snapshot of visible item texts, as built in
`Utils.wait_for_new_profiles`: `{el.text.strip() for el in elems if el.text.strip()}`. -/
def snapshotOf (ts : List Str) : Finset Str :=
  ((ts.map trimChars).filter (fun x => x ≠ [])).toFinset

/-- Simulated surface for `Utils.wait_for_new_profiles`: for each iteration of
its `while True` loop, the element texts seen at the first snapshot and those
seen after the extra scroll.  The loading-spinner wait is non-fatal either way
and affects timing only. -/
structure WaitEnv where
  before : Nat → List Str
  after : Nat → List Str

/-- `Utils.wait_for_new_profiles` (utils.py, lines 113-185).  The source is
annotated `-> bool` but only the new-content branch executes `return True`;
when the post-scroll snapshot is still a subset of `existing_profiles` the
loop breaks and the function falls off the end, returning Python's `None`.
The inner `Option Bool` is that returned value (`some true` for `True`,
`none` for the implicit `None`); the outer `none` is fuel exhaustion. -/
def wait_for_new_profiles (env : WaitEnv) (existing : Finset Str) :
    Nat → Nat → Option (Option Bool)
  | 0, _ => none
  | fuel + 1, i =>
    if ¬ snapshotOf (env.before i) ⊆ existing then some (some true)
    else if snapshotOf (env.after i) ⊆ existing then some none
    else wait_for_new_profiles env existing fuel (i + 1)

/-- `InstaLogin.keywords` (login.py, line 55). -/
def keywords : List Str :=
  [("entrar").toList, ("log in").toList, ("login").toList,
   ("iniciar sesión").toList, ("connexion").toList, ("anmelden").toList]

/-- `InstaLogin.META_VERIFIED_SIGNATURES` (login.py, lines 58-61). -/
def META_VERIFIED_SIGNATURES : List Str :=
  [("o meta verified está disponível para o facebook e o instagram").toList,
   ("meta verified").toList]

/-- The candidate filter of the fallback loop (login.py, lines 202-203):
`btn.get_attribute("textContent").strip().casefold()` contains some keyword. -/
def button_matches (txt : Str) : Bool :=
  keywords.any (fun kw => containsSub ((trimChars txt).map lowerChar) kw)

/-- The `for btn in login_buttons` loop (login.py, lines 200-220).  Each
candidate is `(textContent, whether clicking it changes the URL in time)`;
`ready` is whether the page then reaches `readyState == "complete"` in time.
A candidate whose text matches but whose post-click waits fail raises inside
the loop body and is skipped by the inner `except`.  `true` means the loop
broke after a successful click; `false` means it completed without `break`, so
the `for`-`else` raises `"No suitable login button found"`. -/
def fallbackScan (ready : Bool) : List (Str × Bool) → Bool
  | [] => false
  | (txt, clickOk) :: rest =>
    if button_matches txt then
      if clickOk && ready then true else fallbackScan ready rest
    else fallbackScan ready rest

/-- Simulated browser for `InstaLogin.login`: navigation, form-field
visibility, credential entry, whether the primary RETURN submit changes the
URL within the timeout, the fallback button candidates, the readiness wait,
the page observables read by the interstitial check, and the timestamp used
for evidence-file names.  The opportunistic "Ignorar" click and the
"Save login info" dismissal never raise (both swallow every exception), so
they need no fields. -/
structure LoginEnv where
  navOk : Bool
  fieldsVisible : Bool
  credsOk : Bool
  primaryRedirects : Bool
  buttons : List (Str × Bool)
  readyOk : Bool
  pageUrl : Str
  pageTitle : Str
  pageHtml : Str
  ts : Str

/-- Outcome of `InstaLogin.login`: `ok` is `return True`; the error
alternatives are the distinct raises.  `interstitial` carries exactly the
fields of `MetaInterstitialError` (login.py, lines 44-51): url, page title,
evidence path, screenshot path — the matched signature is only logged. -/
inductive LoginRes where
  | ok
  | navError
  | formTimeout
  | credsError
  | fallbackError
  | interstitial (url pageTitle evidencePath screenshotPath : Str)
deriving DecidableEq

/-- Evidence-file path built in `_check_for_meta_interstitial` (login.py, line 120). -/
def evidencePath (ts : Str) : Str :=
  ("instat/logs/artifacts/meta_interstitial_").toList ++ ts ++ (".html").toList

/-- Screenshot path built in `_check_for_meta_interstitial` (login.py, line 121). -/
def screenshotPath (ts : Str) : Str :=
  ("instat/logs/artifacts/meta_interstitial_").toList ++ ts ++ (".png").toList

/-- The signature scan of `_check_for_meta_interstitial` (login.py,
lines 107-111): first signature that is a substring of the case-folded page
markup.  Only the markup is searched; title and URL are merely captured. -/
def findSignature (html : Str) : Option Str :=
  META_VERIFIED_SIGNATURES.find? (fun sig => containsSub (html.map lowerChar) sig)

/-- `InstaLogin._check_for_meta_interstitial` (login.py, lines 99-153):
`some r` is the raised `MetaInterstitialError`, `none` means no interstitial.
The page title is stripped as in the source; evidence capture is best-effort
and cannot fail in the model. -/
def check_for_meta_interstitial (env : LoginEnv) : Option LoginRes :=
  match findSignature env.pageHtml with
  | some _ =>
    some (.interstitial env.pageUrl (trimChars env.pageTitle)
      (evidencePath env.ts) (screenshotPath env.ts))
  | none => none

/-- `InstaLogin.login` (login.py, lines 155-232). -/
def login (env : LoginEnv) : LoginRes :=
  if env.navOk = false then .navError
  else if env.fieldsVisible = false then .formTimeout
  else if env.credsOk = false then .credsError
  else if env.primaryRedirects = false ∧ fallbackScan env.readyOk env.buttons = false then
    .fallbackError
  else
    match check_for_meta_interstitial env with
    | some r => r
    | none => .ok

/-- A modal surface whose displayed count text is unparsable while the list
behind it does contain a collectable handle. -/
def envC2 : ModalEnv :=
  { navOk := true, linkFound := true, clickOk := true,
    linkText := ("abc").toList,
    profiles :=
      { bodyFound := true,
        visible := fun _ => [("alice").toList],
        elapsed := fun _ => 0 } }

/-- A surface that never shows any item: every snapshot is empty. -/
def envNeverNew : ProfEnv :=
  { bodyFound := true, visible := fun _ => [], elapsed := fun _ => 0 }

/-- A surface for the budget check: elapsed time is already 10 at round 0. -/
def envLate : ProfEnv :=
  { bodyFound := true, visible := fun _ => [], elapsed := fun _ => 10 }

/-- A stalled waiter surface: both snapshots of every iteration are empty. -/
def envC9 : WaitEnv :=
  { before := fun _ => [], after := fun _ => [] }

/-- A waiter surface that immediately shows a new item. -/
def envC9new : WaitEnv :=
  { before := fun _ => [("bob").toList], after := fun _ => [("bob").toList] }

/-- A login form whose primary submit stalls, with a second candidate button
labelled "Log In" whose click does change the URL. -/
def envC7 : LoginEnv :=
  { navOk := true, fieldsVisible := true, credsOk := true,
    primaryRedirects := false,
    buttons := [(("Sign up").toList, true), (("Log In").toList, true)],
    readyOk := true,
    pageUrl := [], pageTitle := [], pageHtml := [], ts := [] }

/-- A login form whose primary submit stalls and no candidate text matches any
login keyword. -/
def envC7none : LoginEnv :=
  { navOk := true, fieldsVisible := true, credsOk := true,
    primaryRedirects := false,
    buttons := [(("Sign up").toList, true)],
    readyOk := true,
    pageUrl := [], pageTitle := [], pageHtml := [], ts := [] }

/-- A post-login page whose *title* contains a known interstitial signature
while the markup does not. -/
def envC8 : LoginEnv :=
  { navOk := true, fieldsVisible := true, credsOk := true,
    primaryRedirects := true, buttons := [], readyOk := true,
    pageUrl := ("https://www.instagram.com/").toList,
    pageTitle := ("Meta Verified").toList,
    pageHtml := [], ts := [] }

/-- A post-login page whose markup contains a known interstitial signature. -/
def envC8sig : LoginEnv :=
  { navOk := true, fieldsVisible := true, credsOk := true,
    primaryRedirects := true, buttons := [], readyOk := true,
    pageUrl := ("https://www.instagram.com/").toList,
    pageTitle := ("Instagram").toList,
    pageHtml := ("<div>Meta Verified</div>").toList,
    ts := ("20250101_000000").toList }


/-- Mapping a function that fixes every element of a list is the identity. -/
theorem mapFix {f : Char → Char} : ∀ {l : Str}, (∀ x ∈ l, f x = x) → l.map f = l := by
  intro l h
  calc l.map f = l.map id := List.map_congr_left (by simpa using h)
  _ = l := List.map_id l

/-- A prefix of a list fixed by `dropWhile` is itself fixed by `dropWhile`. -/
theorem dropWhileFixPrefix {p : Char → Bool} : ∀ {t l : Str},
    List.dropWhile p l = l → t <+: l → List.dropWhile p t = t := by
  intro t l hl ht
  cases t with
  | nil => simp
  | cons a t2 =>
    obtain ⟨r, hr⟩ := ht
    rw [List.cons_append] at hr
    subst hr
    by_cases hpa : p a = true
    · rw [List.dropWhile_cons_of_pos hpa] at hl
      have hle : (List.dropWhile p (t2 ++ r)).length ≤ (t2 ++ r).length :=
        (List.dropWhile_suffix p).length_le
      rw [hl] at hle
      simp at hle
    · rw [List.dropWhile_cons_of_neg hpa]

/-- Python's `strip` is idempotent. -/
theorem trim_idem (s : Str) : trimChars (trimChars s) = trimChars s := by
  unfold trimChars
  have h1 : List.dropWhile isSpaceC (List.dropWhile isSpaceC s) = List.dropWhile isSpaceC s :=
    List.dropWhile_idempotent isSpaceC s
  have h2 : List.dropWhile isSpaceC
      (List.rdropWhile isSpaceC (List.dropWhile isSpaceC s)) =
      List.rdropWhile isSpaceC (List.dropWhile isSpaceC s) :=
    dropWhileFixPrefix h1 (List.rdropWhile_prefix isSpaceC _)
  rw [h2, List.rdropWhile_idempotent]

/-- Extraction only ever adds to the collected set. -/
theorem extract_subset : ∀ (ts : List Str) (s : Finset Str),
    s ⊆ (extract_visible_profiles ts s).1 := by
  intro ts
  induction ts with
  | nil => intro s; simp [extract_visible_profiles]
  | cons t rest ih =>
    intro s
    simp only [extract_visible_profiles]
    by_cases h : trimChars t ≠ [] ∧ trimChars t ∉ s
    · rw [if_pos h]
      exact (Finset.subset_insert _ s).trans (ih _)
    · rw [if_neg h]
      exact ih s

/-- Every element of the extracted set was already collected or is the
non-empty strip of a visible text (hence fixed by stripping). -/
theorem extract_mem : ∀ (ts : List Str) (s : Finset Str) (x : Str),
    x ∈ (extract_visible_profiles ts s).1 →
    x ∈ s ∨ (x ≠ [] ∧ trimChars x = x) := by
  intro ts
  induction ts with
  | nil =>
    intro s x hx
    left
    simpa [extract_visible_profiles] using hx
  | cons t rest ih =>
    intro s x hx
    simp only [extract_visible_profiles] at hx
    by_cases h : trimChars t ≠ [] ∧ trimChars t ∉ s
    · rw [if_pos h] at hx
      rcases ih _ _ hx with hmem | hnew
      · rcases Finset.mem_insert.mp hmem with hx1 | hx2
        · right
          refine ⟨by rw [hx1]; exact h.1, ?_⟩
          rw [hx1]
          exact trim_idem t
        · left; exact hx2
      · right; exact hnew
    · rw [if_neg h] at hx
      exact ih _ _ hx

/-- On a surface whose visible texts all strip to empty, extraction is a
no-op and reports no new profiles. -/
theorem extract_stall : ∀ (ts : List Str) (s : Finset Str),
    (∀ x ∈ ts, trimChars x = []) →
    extract_visible_profiles ts s = (s, false) := by
  intro ts
  induction ts with
  | nil => intro s _; rfl
  | cons t rest ih =>
    intro s h
    have ht : trimChars t = [] := h t (by simp)
    simp only [extract_visible_profiles, ht]
    rw [if_neg (by simp)]
    exact ih s (fun x hx => h x (by simp [hx]))

/-- Across any complete run of the collection loop, the collected set only
grows, and the member invariant (non-empty, strip-fixed) is preserved. -/
theorem runProfiles_facts (cfg : PCfg) (env : ProfEnv) (expected : Nat) (maxDur : Option Rat) :
    ∀ (fuel : Nat) (st : PState) (out : PState × ExitReason),
      runProfiles cfg env expected maxDur fuel st = some out →
      st.collected ⊆ out.1.collected ∧
      ((∀ x ∈ st.collected, x ≠ [] ∧ trimChars x = x) →
        ∀ x ∈ out.1.collected, x ≠ [] ∧ trimChars x = x) := by
  intro fuel
  induction fuel with
  | zero => intro st out h; simp [runProfiles] at h
  | succ n ih =>
    intro st out h
    rw [runProfiles] at h
    split at h
    · split at h
      · cases h
        exact ⟨Finset.Subset.refl _, fun hP => hP⟩
      · dsimp only at h
        split at h
        · cases h
          refine ⟨extract_subset _ _, fun hP x hx => ?_⟩
          rcases extract_mem _ _ x hx with hs | hnew
          · exact hP x hs
          · exact hnew
        · have hrec := ih _ _ h
          refine ⟨(extract_subset _ _).trans hrec.1, fun hP => ?_⟩
          apply hrec.2
          intro x hx
          rcases extract_mem _ _ x hx with hs | hnew
          · exact hP x hs
          · exact hnew
    · cases h
      exact ⟨Finset.Subset.refl _, fun hP => hP⟩

/-- When the loop runs with no wall-clock budget, it never exits for the
budget reason. -/
theorem runProfiles_no_budget (cfg : PCfg) (env : ProfEnv) (expected : Nat) :
    ∀ (fuel : Nat) (st : PState) (out : PState × ExitReason),
      runProfiles cfg env expected none fuel st = some out →
      out.2 ≠ ExitReason.budgetExceeded := by
  intro fuel
  induction fuel with
  | zero => intro st out h; simp [runProfiles] at h
  | succ n ih =>
    intro st out h
    rw [runProfiles] at h
    split at h
    · have hc : is_max_duration_exceeded (env.elapsed st.round) none = false := rfl
      rw [hc] at h
      simp only [Bool.false_eq_true, if_false] at h
      split at h
      · cases h; simp
      · exact ih _ _ h
    · cases h; simp

/-- A budget that is already exceeded at the top of a round ends the loop at
once, returning the state (hence collected set) unchanged. -/
theorem runProfiles_budget_stop (cfg : PCfg) (env : ProfEnv) (expected : Nat) (b : Rat)
    (fuel : Nat) (st : PState)
    (hr : st.refresh < cfg.max_refresh_attempts)
    (hb : b < env.elapsed st.round) :
    runProfiles cfg env expected (some b) (fuel + 1) st = some (st, .budgetExceeded) := by
  have hc : is_max_duration_exceeded (env.elapsed st.round) (some b) = true := by
    unfold is_max_duration_exceeded
    exact decide_eq_true hb
  rw [runProfiles, if_pos hr, hc]
  simp

/-- Under a surface that never shows a collectable item, the loop terminates
within `pMeasure` rounds: each non-exiting round strictly decreases the
measure, every exit keeps `refresh` within its ceiling, and the collected set
is returned exactly as it was. -/
theorem runProfiles_stall (cfg : PCfg) (env : ProfEnv) (expected : Nat) (maxDur : Option Rat)
    (hstall : ∀ t x, x ∈ env.visible t → trimChars x = []) :
    ∀ (fuel : Nat) (st : PState),
      st.tryc ≤ cfg.max_retry_without_new_profiles →
      st.refresh ≤ cfg.max_refresh_attempts →
      pMeasure cfg st < fuel →
      ∃ stf reason, runProfiles cfg env expected maxDur fuel st = some (stf, reason) ∧
        stf.refresh ≤ cfg.max_refresh_attempts ∧ stf.collected = st.collected := by
  intro fuel
  induction fuel with
  | zero => intro st h1 h2 h3; omega
  | succ n ih =>
    intro st h1 h2 h3
    rw [runProfiles]
    by_cases hr : st.refresh < cfg.max_refresh_attempts
    · rw [if_pos hr]
      by_cases hbud : is_max_duration_exceeded (env.elapsed st.round) maxDur = true
      · rw [hbud]
        exact ⟨st, .budgetExceeded, by simp, h2, rfl⟩
      · rw [Bool.not_eq_true] at hbud
        rw [hbud]
        have hext : extract_visible_profiles (env.visible st.round) st.collected
            = (st.collected, false) :=
          extract_stall _ _ (fun x hx => hstall _ x hx)
        simp only [hext]
        by_cases htgt : expected ≤ st.collected.card
        · rw [if_pos htgt]
          exact ⟨{ st with collected := st.collected }, .targetReached, by simp, h2, rfl⟩
        · rw [if_neg htgt]
          by_cases hesc : cfg.max_retry_without_new_profiles < st.tryc + 1
          · have hh : handle_profile_count cfg.max_retry_without_new_profiles false
                st.prev st.tryc st.refresh
                = { refresh := st.refresh + 1, tryc := 0, prev := 0, didRefresh := true } := by
              unfold handle_profile_count
              simp [hesc]
            rw [hh]
            have hmeas : pMeasure cfg
                { collected := st.collected, refresh := st.refresh + 1, tryc := 0,
                  prev := 0, round := st.round + 1 } < n := by
              have ht : st.tryc = cfg.max_retry_without_new_profiles := by omega
              have hstep : cfg.max_refresh_attempts - st.refresh
                  = (cfg.max_refresh_attempts - (st.refresh + 1)) + 1 := by omega
              unfold pMeasure at h3 ⊢
              dsimp only at h3 ⊢
              rw [hstep, Nat.add_mul, Nat.one_mul] at h3
              generalize (cfg.max_refresh_attempts - (st.refresh + 1)) *
                (cfg.max_retry_without_new_profiles + 1) = A at h3 ⊢
              omega
            obtain ⟨stf, reason, hrun, href, hcol⟩ :=
              ih { collected := st.collected, refresh := st.refresh + 1, tryc := 0,
                   prev := 0, round := st.round + 1 } (by dsimp only; omega)
                (by dsimp only; omega) hmeas
            exact ⟨stf, reason, hrun, href, hcol⟩
          · have hh : handle_profile_count cfg.max_retry_without_new_profiles false
                st.prev st.tryc st.refresh
                = { refresh := st.refresh, tryc := st.tryc + 1, prev := st.prev,
                    didRefresh := false } := by
              unfold handle_profile_count
              simp [hesc]
            rw [hh]
            have hmeas : pMeasure cfg
                { collected := st.collected, refresh := st.refresh, tryc := st.tryc + 1,
                  prev := st.prev, round := st.round + 1 } < n := by
              unfold pMeasure at h3 ⊢
              dsimp only at h3 ⊢
              generalize (cfg.max_refresh_attempts - st.refresh) *
                (cfg.max_retry_without_new_profiles + 1) = A at h3 ⊢
              omega
            obtain ⟨stf, reason, hrun, href, hcol⟩ :=
              ih { collected := st.collected, refresh := st.refresh, tryc := st.tryc + 1,
                   prev := st.prev, round := st.round + 1 } (by dsimp only; omega) h2 hmeas
            exact ⟨stf, reason, hrun, href, hcol⟩
    · rw [if_neg hr]
      exact ⟨st, .ceilingReached, rfl, h2, rfl⟩

/-- The only value the stall waiter ever returns with `return` is `True`;
every other termination is the implicit `None`. -/
theorem wait_only_true : ∀ (env : WaitEnv) (ex : Finset Str) (fuel i : Nat) (b : Bool),
    wait_for_new_profiles env ex fuel i = some (some b) → b = true := by
  intro env ex fuel
  induction fuel with
  | zero => intro i b h; simp [wait_for_new_profiles] at h
  | succ n ih =>
    intro i b h
    rw [wait_for_new_profiles] at h
    split at h
    · simp only [Option.some.injEq] at h
      exact h.symm
    · split at h
      · simp at h
      · exact ih _ _ h

/-- A candidate list with no keyword match leaves the fallback loop without a
break, triggering the `for`-`else` raise. -/
theorem fallbackScan_nomatch (ready : Bool) : ∀ bs : List (Str × Bool),
    (∀ b ∈ bs, button_matches b.1 = false) → fallbackScan ready bs = false := by
  intro bs
  induction bs with
  | nil => intro _; rfl
  | cons b rest ih =>
    intro h
    obtain ⟨txt, clickOk⟩ := b
    have hb : button_matches txt = false := h (txt, clickOk) (by simp)
    simp only [fallbackScan, hb]
    rw [if_neg (by simp)]
    exact ih (fun x hx => h x (by simp [hx]))

/-- The fallback loop clicks the first matching candidate; when its click
changes the URL and the page then becomes ready, the loop breaks
successfully. -/
theorem fallbackScan_first : ∀ (pre : List (Str × Bool)) (txt : Str) (post : List (Str × Bool)),
    (∀ b ∈ pre, button_matches b.1 = false) →
    button_matches txt = true →
    fallbackScan true (pre ++ (txt, true) :: post) = true := by
  intro pre
  induction pre with
  | nil =>
    intro txt post _ hm
    simp [fallbackScan, hm]
  | cons b pre ih =>
    intro txt post h hm
    obtain ⟨t0, c0⟩ := b
    have hb : button_matches t0 = false := h (t0, c0) (by simp)
    simp only [List.cons_append, fallbackScan, hb]
    rw [if_neg (by simp)]
    exact ih txt post (fun x hx => h x (by simp [hx])) hm

/-- Lower-casing fixes a decimal digit. -/
theorem digit_lower {c : Char} (h : isDigitC c = true) : lowerChar c = c := by
  have hd := of_decide_eq_true h
  unfold lowerChar
  rw [if_neg (by omega)]

/-- A decimal digit is not whitespace. -/
theorem digit_not_space {c : Char} (h : isDigitC c = true) : isSpaceC c = false := by
  have hd := of_decide_eq_true h
  unfold isSpaceC
  apply decide_eq_false
  omega

/-- The greedy `(\d+)` match: a run of digits followed by a non-digit (or the
end) splits exactly at the boundary. -/
theorem splitDigits_append : ∀ (ds r : Str),
    (∀ c ∈ ds, isDigitC c = true) →
    (∀ c ∈ r.take 1, isDigitC c = false) →
    splitDigits (ds ++ r) = (ds, r) := by
  intro ds
  induction ds with
  | nil =>
    intro r _ hr
    cases r with
    | nil => rfl
    | cons c rs =>
      have hc : isDigitC c = false := hr c (by simp)
      simp [splitDigits, hc]
  | cons d ds ih =>
    intro r h hr
    have hd : isDigitC d = true := h d (by simp)
    have hih := ih r (fun c hc => h c (by simp [hc])) hr
    simp [splitDigits, hd, List.append_eq, hih]

/-- A single character that occurs in a list is a substring of it. -/
theorem containsSub_of_mem {c : Char} : ∀ {hay : Str}, c ∈ hay → containsSub hay [c] = true := by
  intro hay
  induction hay with
  | nil => intro h; simp at h
  | cons x t ih =>
    intro h
    rw [containsSub]
    rcases List.mem_cons.mp h with hx | ht
    · have hs : startsWithL [c] (x :: t) = true := by
        subst hx
        simp [startsWithL]
      simp [hs]
    · simp [ih ht]

/-- The lower-case/strip-whitespace normalisation fixes a list of characters
that are each already lower-case and non-whitespace. -/
theorem normalizeFix {l : Str} (h : ∀ c ∈ l, lowerChar c = c ∧ isSpaceC c = false) :
    (l.map lowerChar).filter (fun c => !isSpaceC c) = l := by
  rw [mapFix (fun x hx => (h x hx).1)]
  exact List.filter_eq_self.mpr (fun a ha => by simp [(h a ha).2])

/-- Core computation of `parse_count_text` on an input of the shape
`<digits> "." <digits> <suffix>`: both factors of the fractional contribution
use Nat (floor) division of the multiplier. -/
theorem parse_count_concrete (is ds suf : Str)
    (hisd : ∀ c ∈ is, isDigitC c = true) (hdsd : ∀ c ∈ ds, isDigitC c = true)
    (hisne : is ≠ []) (hdsne : ds ≠ [])
    (hfixs : ∀ c ∈ suf, lowerChar c = c ∧ isSpaceC c = false)
    (hany : suffixTokens.any (fun s => containsSub (is ++ '.' :: (ds ++ suf)) s) = true)
    (hhead : ∀ c ∈ suf.take 1, isDigitC c = false)
    (hso : suffixOf suf = some (some suf)) :
    parse_count_text (is ++ '.' :: (ds ++ suf)) =
      .ok (digitsToNat is * multiplierOf (some suf)
        + digitsToNat ds * (multiplierOf (some suf) / 10 ^ ds.length)) := by
  have htne : is ++ '.' :: (ds ++ suf) ≠ [] := by
    cases is with
    | nil => exact absurd rfl hisne
    | cons a t => simp
  have hfixall : ((is ++ '.' :: (ds ++ suf)).map lowerChar).filter (fun c => !isSpaceC c)
      = is ++ '.' :: (ds ++ suf) := by
    apply normalizeFix
    intro c hc
    rcases List.mem_append.mp hc with hci | hcr
    · exact ⟨digit_lower (hisd c hci), digit_not_space (hisd c hci)⟩
    · rcases List.mem_cons.mp hcr with rfl | hcr2
      · exact ⟨by decide, by decide⟩
      · rcases List.mem_append.mp hcr2 with hcd | hcs
        · exact ⟨digit_lower (hdsd c hcd), digit_not_space (hdsd c hcd)⟩
        · exact hfixs c hcs
  have hsp1 : splitDigits (is ++ '.' :: (ds ++ suf)) = (is, '.' :: (ds ++ suf)) := by
    apply splitDigits_append is _ hisd
    intro c hc
    simp at hc
    subst hc
    decide
  have hsp2 : splitDigits (ds ++ suf) = (ds, suf) :=
    splitDigits_append ds suf hdsd hhead
  have hmatch : matchCount (is ++ '.' :: (ds ++ suf)) = some (is, some ds, some suf) := by
    unfold matchCount
    rw [hsp1]
    dsimp only
    rw [if_neg hisne]
    simp only [beq_self_eq_true, Bool.true_or, if_true, hsp2]
    rw [if_neg hdsne, hso]
  unfold parse_count_text
  rw [if_neg htne]
  simp only [hfixall, hany, if_true, hmatch]

/-- `parse_count_text` on `<digits> "." <digits> <suffix>` for each of the
four magnitude suffixes: the fractional part always contributes
`frac * (multiplier / 10 ^ digits)` with Nat floor division. -/
theorem parse_general (is ds suf : Str)
    (hisd : ∀ c ∈ is, isDigitC c = true) (hdsd : ∀ c ∈ ds, isDigitC c = true)
    (hisne : is ≠ []) (hdsne : ds ≠ []) (hsuf : suf ∈ suffixTokens) :
    parse_count_text (is ++ '.' :: (ds ++ suf)) =
      .ok (digitsToNat is * multiplierOf (some suf)
        + digitsToNat ds * (multiplierOf (some suf) / 10 ^ ds.length)) := by
  have h4 : suf = ['k'] ∨ suf = ['m'] ∨ suf = ['m', 'i'] ∨ suf = ['m', 'i', 'l'] := by
    simpa [suffixTokens] using hsuf
  rcases h4 with rfl | rfl | rfl | rfl
  · exact parse_count_concrete is ds ['k'] hisd hdsd hisne hdsne
      (by intro c hc; simp at hc; subst hc; exact ⟨by decide, by decide⟩)
      (List.any_eq_true.mpr ⟨['k'], by simp [suffixTokens], containsSub_of_mem (by simp)⟩)
      (by intro c hc; simp at hc; subst hc; decide)
      (by decide)
  · exact parse_count_concrete is ds ['m'] hisd hdsd hisne hdsne
      (by intro c hc; simp at hc; subst hc; exact ⟨by decide, by decide⟩)
      (List.any_eq_true.mpr ⟨['m'], by simp [suffixTokens], containsSub_of_mem (by simp)⟩)
      (by intro c hc; simp at hc; subst hc; decide)
      (by decide)
  · exact parse_count_concrete is ds ['m', 'i'] hisd hdsd hisne hdsne
      (by intro c hc; simp at hc; rcases hc with rfl | rfl <;> exact ⟨by decide, by decide⟩)
      (List.any_eq_true.mpr ⟨['m'], by simp [suffixTokens], containsSub_of_mem (by simp)⟩)
      (by intro c hc; simp at hc; subst hc; decide)
      (by decide)
  · exact parse_count_concrete is ds ['m', 'i', 'l'] hisd hdsd hisne hdsne
      (by intro c hc; simp at hc; rcases hc with rfl | rfl | rfl <;> exact ⟨by decide, by decide⟩)
      (List.any_eq_true.mpr ⟨['m'], by simp [suffixTokens], containsSub_of_mem (by simp)⟩)
      (by intro c hc; simp at hc; subst hc; decide)
      (by decide)

/-- C1: the count parser meets the spec's reference vectors — "12k" ↦ 12000,
"1.2k" ↦ 1200, "3,400" ↦ 3400, "2mi" ↦ 2000000 — it fails on the empty
string and on "12.3.4k", and the suffix multipliers are k→10³, m/mi→10⁶,
mil→10³. -/
theorem C1_count_parser_reference_vectors :
    parse_count_text (("12k").toList) = .ok 12000 ∧
    parse_count_text (("1.2k").toList) = .ok 1200 ∧
    parse_count_text (("3,400").toList) = .ok 3400 ∧
    parse_count_text (("2mi").toList) = .ok 2000000 ∧
    isOkE (parse_count_text []) = false ∧
    isOkE (parse_count_text (("12.3.4k").toList)) = false ∧
    multiplierOf (some ['k']) = 1000 ∧
    multiplierOf (some ['m']) = 1000000 ∧
    multiplierOf (some ['m', 'i']) = 1000000 ∧
    multiplierOf (some ['m', 'i', 'l']) = 1000 :=
  ⟨rfl, rfl, rfl, rfl, rfl, rfl, rfl, rfl, rfl, rfl⟩

/-- C2 counterexample: with the unparsable displayed count "abc",
`_extract_list` returns the empty result and never runs the extraction —
even though `get_profiles` on the same modal surface would have collected a
handle — so collection does not proceed after a parse failure. -/
theorem C2_counterexample_parse_failure_aborts :
    extract_list defaultCfg envC2 .followers none 3 = some (.ok ∅) ∧
    get_profiles defaultCfg envC2.profiles 1 none 3 = some {("alice").toList} ∧
    isOkE (parse_count_text (("abc").toList)) = false :=
  ⟨rfl, by decide, rfl⟩

/-- C2 (amended): when the displayed count text of the entry point fails to
parse, the `ValueError` is caught — no error reaches the caller — but the
collection is aborted: `_open_list_modal` returns `None` and `_extract_list`
returns the empty result without extracting anything. -/
theorem C2_amended_parse_failure_returns_empty
    (cfg : PCfg) (env : ModalEnv) (kind : ListKind) (maxDur : Option Rat) (fuel : Nat)
    (p0 : Str) (rest : List Str)
    (hnav : env.navOk = true) (hlink : env.linkFound = true)
    (hsplit : splitWs env.linkText = p0 :: rest)
    (hfail : isOkE (parse_count_text (joinRaw p0 rest)) = false) :
    open_list_modal env kind = .ok none ∧
    extract_list cfg env kind maxDur fuel = some (.ok ∅) := by
  have hopen : open_list_modal env kind = .ok none := by
    unfold open_list_modal
    rw [hnav, hlink, hsplit]
    simp only [Bool.true_eq_false, if_false]
    cases hp : parse_count_text (joinRaw p0 rest) with
    | error e => simp
    | ok n =>
      rw [hp] at hfail
      simp [isOkE] at hfail
  refine ⟨hopen, ?_⟩
  unfold extract_list
  rw [hopen]

/-- Closed instance of the amended C2. -/
theorem C2_amended_witness :
    open_list_modal envC2 .followers = .ok none ∧
    extract_list defaultCfg envC2 .followers none 3 = some (.ok ∅) :=
  C2_amended_parse_failure_returns_empty defaultCfg envC2 .followers none 3
    (("abc").toList) [] rfl rfl rfl rfl

/-- C3: across any rounds of `get_profiles`, the collected set only grows
(so its cardinality is monotone round over round), every member is a
non-empty strip-fixed text (a `Finset` admits no duplicates), and the
refresh escalation resets only the stall counters — the collected set is not
touched by `_handle_profile_count`. -/
theorem C3_collected_set_invariants :
    (∀ (ts : List Str) (s : Finset Str),
      s ⊆ (extract_visible_profiles ts s).1 ∧
      s.card ≤ (extract_visible_profiles ts s).1.card) ∧
    (∀ (cfg : PCfg) (env : ProfEnv) (expected : Nat) (maxDur : Option Rat)
      (fuel : Nat) (st : PState) (out : PState × ExitReason),
      runProfiles cfg env expected maxDur fuel st = some out →
      st.collected ⊆ out.1.collected ∧
      st.collected.card ≤ out.1.collected.card ∧
      ((∀ x ∈ st.collected, x ≠ [] ∧ trimChars x = x) →
        ∀ x ∈ out.1.collected, x ≠ [] ∧ trimChars x = x)) ∧
    (∀ (m prev tryc refresh : Nat) (nf : Bool),
      (handle_profile_count m nf prev tryc refresh).didRefresh = true →
      (handle_profile_count m nf prev tryc refresh).tryc = 0 ∧
      (handle_profile_count m nf prev tryc refresh).prev = 0) := by
  refine ⟨?_, ?_, ?_⟩
  · intro ts s
    exact ⟨extract_subset ts s, Finset.card_le_card (extract_subset ts s)⟩
  · intro cfg env expected maxDur fuel st out h
    obtain ⟨h1, h2⟩ := runProfiles_facts cfg env expected maxDur fuel st out h
    exact ⟨h1, Finset.card_le_card h1, h2⟩
  · intro m prev tryc refresh nf h
    unfold handle_profile_count at h ⊢
    by_cases h1 : prev < prev + (if nf then 1 else 0)
    · rw [if_pos h1] at h
      simp at h
    · rw [if_neg h1] at h ⊢
      by_cases h2 : m < tryc + 1
      · rw [if_pos h2]
        exact ⟨rfl, rfl⟩
      · rw [if_neg h2] at h
        simp at h

/-- Closed instance of C3. -/
theorem C3_witness :
    ({("bob").toList} : Finset Str) ⊆
      (extract_visible_profiles [("alice").toList] {("bob").toList}).1 ∧
    initPState.collected ⊆ ({("alice").toList} : Finset Str) ∧
    (handle_profile_count 3 false 0 3 0).tryc = 0 :=
  ⟨(C3_collected_set_invariants.1 [("alice").toList] {("bob").toList}).1,
   (C3_collected_set_invariants.2.1 defaultCfg envC2.profiles 1 none 3 initPState
      ({ collected := {("alice").toList}, refresh := 0, tryc := 0, prev := 0, round := 0 },
        .targetReached) (by decide)).1,
   (C3_collected_set_invariants.2.2 3 0 3 0 false (by decide)).1⟩

/-- C4: `_handle_profile_count` — with a new handle this round, the stall
counter resets to 0, the progress counter increments and the refresh count
is untouched; otherwise the stall counter increments, and exactly when the
incremented counter exceeds `max_retry_without_new_profiles` (default 3) a
page refresh is performed, the refresh count increments, and both the stall
counter and the progress counter reset to 0. -/
theorem C4_stall_bookkeeping :
    (∀ m prev tryc refresh, handle_profile_count m true prev tryc refresh =
      { refresh := refresh, tryc := 0, prev := prev + 1, didRefresh := false }) ∧
    (∀ m prev tryc refresh, tryc + 1 ≤ m →
      handle_profile_count m false prev tryc refresh =
        { refresh := refresh, tryc := tryc + 1, prev := prev, didRefresh := false }) ∧
    (∀ m prev tryc refresh, m < tryc + 1 →
      handle_profile_count m false prev tryc refresh =
        { refresh := refresh + 1, tryc := 0, prev := 0, didRefresh := true }) ∧
    defaultCfg.max_retry_without_new_profiles = 3 := by
  refine ⟨?_, ?_, ?_, rfl⟩
  · intro m prev tryc refresh
    unfold handle_profile_count
    rw [if_pos (by simp)]
    simp
  · intro m prev tryc refresh h
    unfold handle_profile_count
    rw [if_neg (by simp)]
    rw [if_neg (by omega)]
  · intro m prev tryc refresh h
    unfold handle_profile_count
    rw [if_neg (by simp)]
    rw [if_pos h]

/-- Closed instance of C4. -/
theorem C4_witness :
    handle_profile_count 3 true 5 2 7 =
      { refresh := 7, tryc := 0, prev := 6, didRefresh := false } ∧
    handle_profile_count 3 false 5 1 7 =
      { refresh := 7, tryc := 2, prev := 5, didRefresh := false } ∧
    handle_profile_count 3 false 5 3 7 =
      { refresh := 8, tryc := 0, prev := 0, didRefresh := true } :=
  ⟨C4_stall_bookkeeping.1 3 5 2 7,
   C4_stall_bookkeeping.2.1 3 5 1 7 (by omega),
   C4_stall_bookkeeping.2.2.1 3 5 3 7 (by omega)⟩

/-- C5: on a simulated surface that never yields any previously-unseen item,
the collection loop terminates (given fuel beyond its own measure) with the
refresh count never exceeding `max_refresh_attempts` (default 100), returning
the collected set unchanged — and in general every exit of the loop returns a
superset of what was collected, so no termination discards the partial
result. -/
theorem C5_stalled_surface_terminates
    (cfg : PCfg) (env : ProfEnv) (expected : Nat) (maxDur : Option Rat)
    (hstall : ∀ t x, x ∈ env.visible t → trimChars x = []) :
    (∀ (st : PState) (fuel : Nat),
      st.tryc ≤ cfg.max_retry_without_new_profiles →
      st.refresh ≤ cfg.max_refresh_attempts →
      pMeasure cfg st < fuel →
      ∃ stf reason, runProfiles cfg env expected maxDur fuel st = some (stf, reason) ∧
        stf.refresh ≤ cfg.max_refresh_attempts ∧ stf.collected = st.collected) ∧
    (env.bodyFound = true → ∀ fuel : Nat, pMeasure cfg initPState < fuel →
      get_profiles cfg env expected maxDur fuel = some ∅) ∧
    (∀ (fuel : Nat) (st : PState) (out : PState × ExitReason),
      runProfiles cfg env expected maxDur fuel st = some out →
      st.collected ⊆ out.1.collected) ∧
    defaultCfg.max_refresh_attempts = 100 := by
  refine ⟨?_, ?_, ?_, rfl⟩
  · intro st fuel h1 h2 h3
    exact runProfiles_stall cfg env expected maxDur hstall fuel st h1 h2 h3
  · intro hb fuel hfuel
    unfold get_profiles
    rw [hb]
    simp only [if_true]
    obtain ⟨stf, reason, hrun, _, hcol⟩ :=
      runProfiles_stall cfg env expected maxDur hstall fuel initPState
        (by simp [initPState]) (by simp [initPState]) hfuel
    rw [hrun]
    simp [hcol, initPState]
  · intro fuel st out h
    exact (runProfiles_facts cfg env expected maxDur fuel st out h).1

/-- Closed instance of C5. -/
theorem C5_witness :
    get_profiles defaultCfg envNeverNew 5 none 404 = some ∅ :=
  (C5_stalled_surface_terminates defaultCfg envNeverNew 5 none
    (by intro t x hx; simp [envNeverNew] at hx)).2.1 rfl 404 (by decide)

/-- C6: the wall-clock budget is checked at the top of each round — with no
budget the check is constantly false and the loop never exits for the budget
reason, and whenever the elapsed time at a round start exceeds a given
budget, the loop stops at once, handing back the handles collected so far as
an ordinary (non-error) result. -/
theorem C6_budget_check :
    (∀ e : Rat, is_max_duration_exceeded e none = false) ∧
    (∀ (cfg : PCfg) (env : ProfEnv) (expected : Nat) (b : Rat) (fuel : Nat) (st : PState),
      st.refresh < cfg.max_refresh_attempts →
      b < env.elapsed st.round →
      runProfiles cfg env expected (some b) (fuel + 1) st = some (st, .budgetExceeded)) ∧
    (∀ (cfg : PCfg) (env : ProfEnv) (expected : Nat) (fuel : Nat) (st : PState)
      (out : PState × ExitReason),
      runProfiles cfg env expected none fuel st = some out →
      out.2 ≠ ExitReason.budgetExceeded) :=
  ⟨fun _ => rfl,
   fun cfg env expected b fuel st hr hb =>
     runProfiles_budget_stop cfg env expected b fuel st hr hb,
   fun cfg env expected fuel st out h =>
     runProfiles_no_budget cfg env expected fuel st out h⟩

/-- Closed instance of C6. -/
theorem C6_witness :
    runProfiles defaultCfg envLate 5 (some 5) 1 initPState =
      some (initPState, .budgetExceeded) ∧
    is_max_duration_exceeded 100 none = false :=
  ⟨C6_budget_check.2.1 defaultCfg envLate 5 5 0 initPState (by decide)
     (by simp [envLate, initPState]; norm_num),
   C6_budget_check.1 100⟩

/-- C7: when the primary submit leaves the location unchanged, `login` clicks
the first candidate whose visible text case-insensitively contains one of the
keywords {"entrar","log in","login","iniciar sesión","connexion","anmelden"};
if that click changes the location (and the page then loads), login succeeds
through this fallback, and with no matching candidate login fails with an
error. -/
theorem C7_login_fallback :
    (∀ (env : LoginEnv) (pre : List (Str × Bool)) (txt : Str) (post : List (Str × Bool)),
      env.navOk = true → env.fieldsVisible = true → env.credsOk = true →
      env.primaryRedirects = false →
      env.buttons = pre ++ (txt, true) :: post →
      (∀ b ∈ pre, button_matches b.1 = false) →
      button_matches txt = true →
      env.readyOk = true →
      (∀ sig ∈ META_VERIFIED_SIGNATURES,
        containsSub (env.pageHtml.map lowerChar) sig = false) →
      login env = .ok) ∧
    (∀ env : LoginEnv,
      env.navOk = true → env.fieldsVisible = true → env.credsOk = true →
      env.primaryRedirects = false →
      (∀ b ∈ env.buttons, button_matches b.1 = false) →
      login env = .fallbackError) := by
  constructor
  · intro env pre txt post hnav hfld hcr hpr hbtn hpre hm hready hsig
    have hscan : fallbackScan env.readyOk env.buttons = true := by
      rw [hready, hbtn]
      exact fallbackScan_first pre txt post hpre hm
    have hchk : check_for_meta_interstitial env = none := by
      unfold check_for_meta_interstitial findSignature
      rw [List.find?_eq_none.mpr (fun sig hs => by rw [hsig sig hs]; simp)]
    unfold login
    rw [if_neg (by simp [hnav]), if_neg (by simp [hfld]), if_neg (by simp [hcr]),
      if_neg (by simp [hscan]), hchk]
  · intro env hnav hfld hcr hpr hnone
    have hscan : fallbackScan env.readyOk env.buttons = false :=
      fallbackScan_nomatch env.readyOk env.buttons hnone
    unfold login
    rw [if_neg (by simp [hnav]), if_neg (by simp [hfld]), if_neg (by simp [hcr]),
      if_pos ⟨hpr, hscan⟩]

/-- Closed instance of C7. -/
theorem C7_witness :
    login envC7 = .ok ∧ login envC7none = .fallbackError :=
  ⟨C7_login_fallback.1 envC7 [(("Sign up").toList, true)] (("Log In").toList) []
     rfl rfl rfl rfl rfl (by decide) (by decide) rfl (by decide),
   C7_login_fallback.2 envC7none rfl rfl rfl rfl (by decide)⟩

/-- C8 counterexample: a page whose *title* contains the known signature
"meta verified" (case-insensitively) while the markup does not — the
signature scan looks only at the markup, so `login` succeeds, refuting the
claim that a signature found when inspecting the page title, URL and markup
yields the interstitial failure. -/
theorem C8_counterexample_title_match_ignored :
    login envC8 = .ok ∧
    (("meta verified").toList) ∈ META_VERIFIED_SIGNATURES ∧
    containsSub (envC8.pageTitle.map lowerChar) (("meta verified").toList) = true :=
  ⟨by decide, by decide, by decide⟩

/-- C8 (amended): after credential submission and obstacle dismissal, login
fails with the distinct interstitial error — carrying the URL, the stripped
page title and the evidence/screenshot file paths (the matched signature is
logged but not attached) — if and only if a known signature is a
case-insensitive substring of the full page markup alone (the title and URL
are captured as evidence, not searched); with no markup match, login
completes and returns `True`. -/
theorem C8_amended_markup_only (env : LoginEnv)
    (hnav : env.navOk = true) (hfld : env.fieldsVisible = true)
    (hcr : env.credsOk = true) (hpr : env.primaryRedirects = true) :
    ((∃ sig ∈ META_VERIFIED_SIGNATURES,
        containsSub (env.pageHtml.map lowerChar) sig = true) →
      login env = .interstitial env.pageUrl (trimChars env.pageTitle)
        (evidencePath env.ts) (screenshotPath env.ts) ∧
      evidencePath env.ts ≠ []) ∧
    ((∀ sig ∈ META_VERIFIED_SIGNATURES,
        containsSub (env.pageHtml.map lowerChar) sig = false) →
      login env = .ok) := by
  have hlogin : ∀ r, check_for_meta_interstitial env = r →
      login env = (match r with | some x => x | none => .ok) := by
    intro r hr
    unfold login
    rw [if_neg (by simp [hnav]), if_neg (by simp [hfld]), if_neg (by simp [hcr]),
      if_neg (by simp [hpr]), hr]
  constructor
  · intro hex
    obtain ⟨sig, hs, hp⟩ := hex
    have hsome : (META_VERIFIED_SIGNATURES.find?
        (fun s => containsSub (env.pageHtml.map lowerChar) s)).isSome :=
      List.find?_isSome.mpr ⟨sig, hs, hp⟩
    obtain ⟨s0, hs0⟩ := Option.isSome_iff_exists.mp hsome
    have hchk : check_for_meta_interstitial env =
        some (.interstitial env.pageUrl (trimChars env.pageTitle)
          (evidencePath env.ts) (screenshotPath env.ts)) := by
      unfold check_for_meta_interstitial findSignature
      rw [hs0]
    refine ⟨hlogin _ hchk, ?_⟩
    intro hcontra
    rw [evidencePath, List.append_eq_nil, List.append_eq_nil] at hcontra
    exact absurd hcontra.1.1 (by decide)
  · intro hall
    have hchk : check_for_meta_interstitial env = none := by
      unfold check_for_meta_interstitial findSignature
      rw [List.find?_eq_none.mpr (fun s hs => by rw [hall s hs]; simp)]
    exact hlogin _ hchk

/-- Closed instance of the amended C8. -/
theorem C8_witness :
    login envC8sig = .interstitial envC8sig.pageUrl (trimChars envC8sig.pageTitle)
      (evidencePath envC8sig.ts) (screenshotPath envC8sig.ts) ∧
    evidencePath envC8sig.ts ≠ [] :=
  (C8_amended_markup_only envC8sig rfl rfl rfl rfl).1
    ⟨("meta verified").toList, by decide, by decide⟩

/-- C9 (code bug): `wait_for_new_profiles` is annotated `-> bool`, yet on a
stalled surface — both snapshots still subsets of the existing set — the
loop breaks and the function falls off its end, implicitly returning `None`
rather than `False`; the only boolean value it ever returns is `True`, when
some snapshot contains a previously-unseen item. -/
theorem C9_wait_never_returns_false :
    wait_for_new_profiles envC9 ∅ 5 0 = some none ∧
    wait_for_new_profiles envC9new ∅ 5 0 = some (some true) ∧
    (∀ (env : WaitEnv) (ex : Finset Str) (fuel i : Nat) (b : Bool),
      wait_for_new_profiles env ex fuel i = some (some b) → b = true) :=
  ⟨by decide, by decide, wait_only_true⟩

/-- Closed instance of C9. -/
theorem C9_witness :
    wait_for_new_profiles envC9 ∅ 5 0 = some none ∧ true = true :=
  ⟨C9_wait_never_returns_false.1,
   C9_wait_never_returns_false.2.2 envC9new ∅ 5 0 true (by decide)⟩

/-- C10: the fractional contribution of `parse_count_text` floor-divides the
multiplier per factor: on every `<digits>.<digits><suffix>` input the result
is `int*mult + frac*(mult / 10^digits)` with Nat division, so whenever the
fractional part has more digits than the multiplier has trailing zeros the
factor floor-divides to 0 and the whole fraction is silently dropped —
`parse_count_text "1.2345k" = 1000`, not the exact 1234.5 of the spec's
formula. -/
theorem C10_fractional_floor_division :
    parse_count_text (("1.2345k").toList) = .ok 1000 ∧
    (∀ (is ds suf : Str),
      (∀ c ∈ is, isDigitC c = true) → (∀ c ∈ ds, isDigitC c = true) →
      is ≠ [] → ds ≠ [] → suf ∈ suffixTokens →
      parse_count_text (is ++ '.' :: (ds ++ suf)) =
        .ok (digitsToNat is * multiplierOf (some suf)
          + digitsToNat ds * (multiplierOf (some suf) / 10 ^ ds.length))) ∧
    (∀ is ds : Str,
      (∀ c ∈ is, isDigitC c = true) → (∀ c ∈ ds, isDigitC c = true) →
      is ≠ [] → 4 ≤ ds.length →
      parse_count_text (is ++ '.' :: (ds ++ ['k'])) = .ok (digitsToNat is * 1000)) := by
  refine ⟨rfl, fun is ds suf h1 h2 h3 h4 h5 => parse_general is ds suf h1 h2 h3 h4 h5, ?_⟩
  intro is ds h1 h2 h3 hlen
  have hdsne : ds ≠ [] := by
    intro h
    rw [h] at hlen
    simp at hlen
  rw [parse_general is ds ['k'] h1 h2 h3 hdsne (by decide)]
  have hdiv : multiplierOf (some ['k']) / 10 ^ ds.length = 0 := by
    apply Nat.div_eq_of_lt
    calc multiplierOf (some ['k']) = 1000 := rfl
    _ < 10 ^ 4 := by norm_num
    _ ≤ 10 ^ ds.length := Nat.pow_le_pow_right (by norm_num) hlen
  rw [hdiv]
  have hmul : multiplierOf (some ['k']) = 1000 := rfl
  rw [hmul]
  simp

/-- Closed instance of C10. -/
theorem C10_witness :
    parse_count_text ('1' :: '.' :: (['9', '9', '9', '9'] ++ ['k'])) = .ok 1000 := by
  have h := C10_fractional_floor_division.2.2 ['1'] ['9', '9', '9', '9']
    (by decide) (by decide) (by decide) (by decide)
  simpa using h
